import Mathlib

/-!
Verification of the sheet-cache / CSV / search core of the
`xsen-a2a-video-mcp` repository.

The repository contains two near-duplicate implementations of the core:

* `src/index.js`, with `parseCsvSimple`, `ensureCacheFresh` and
  `searchVideos` (embedded below in namespace `IndexJs`);
* an unnamed sibling file, with `loadSheet`, `ensureFresh` and its own
  `searchVideos` (embedded below in namespace `Part000`).

JavaScript strings are modelled as Lean `String`; the JS string methods
used by the code (`trim`, `toLowerCase`, `split`, `includes`) are modelled
on the underlying character list.  JS objects built by
`headers.forEach((h, idx) => row[h] = cols[idx] ?? "")` are modelled as
association lists read with last-assignment-wins lookup (`rowGet`).
Time is in integer seconds (`nowSec` floors to seconds); the TTL is an
`Int` because `Number(process.env...)` may be negative.
The CSV-text fetch capability (an HTTP fetch) is an external collaborator
and is passed in as an `Except` value: `Except.error` models a thrown
error or a non-success status, `Except.ok` the retrieved CSV text.
-/

/-- Whitespace predicate used to model `String.prototype.trim`. -/
def isWs (c : Char) : Bool := c.isWhitespace

/-- Character-list model of JS `trim`: drop whitespace from the front, then
from the back. -/
def trimChars (l : List Char) : List Char :=
  List.rdropWhile isWs (List.dropWhile isWs l)

/-- Model of `s.trim()`. -/
def jsTrim (s : String) : String := String.mk (trimChars s.data)

/-- Model of `s.toLowerCase()` (simple per-character case folding). -/
def jsLower (s : String) : String := String.mk (s.data.map Char.toLower)

/-- Model of `s.split(sep)` for a one-character separator, on character
lists.  Mirrors JS semantics: `"".split(",") = [""]`, `"a,".split(",") =
["a", ""]`. -/
def splitChar (sep : Char) : List Char → List (List Char)
  | [] => [[]]
  | c :: cs =>
    if c = sep then [] :: splitChar sep cs
    else
      match splitChar sep cs with
      | [] => [[c]]
      | x :: xs => (c :: x) :: xs

/-- Model of `s.split(sep)` at the `String` level. -/
def jsSplit (sep : Char) (s : String) : List String :=
  (splitChar sep s.data).map String.mk

/-- Model of `hay.includes(needle)`: substring test. -/
def jsIncludes (hay needle : String) : Bool :=
  decide (needle.data <:+: hay.data)

/-- A sheet row: an object mapping column names to cell values, modelled as
the association list of assignments performed in source order. -/
abbrev Row := List (String × String)

/-- Reading `row[k]` from an object built by in-order assignments: the last
assignment to `k` wins; `none` models `undefined`. -/
def rowGet (r : Row) (k : String) : Option String :=
  r.foldl (fun acc p => if p.1 = k then some p.2 else acc) none

/-- The three configured column names (`TITLE_COL`, `DESC_COL`, `URL_COL`). -/
structure Config where
  titleCol : String
  descCol : String
  urlCol : String
deriving DecidableEq

/-- The default column configuration from the source. -/
def defaultConfig : Config := ⟨"OU Sooners videos", "Description", "URL"⟩

/-- The search result shape `{title, description, url}`. -/
structure VideoRecord where
  title : String
  description : String
  url : String
deriving DecidableEq

/-- The global cache: `{ loadedAt: seconds-since-epoch (0 = never), rows }`. -/
structure CacheState where
  loadedAt : Nat
  rows : List Row
deriving DecidableEq

/-- Helper for stating the claimed de-quoting behaviour: drop one leading
double-quote when present. -/
def dropLeadingQuote (l : List Char) : List Char :=
  match l with
  | c :: cs => if c = '"' then cs else c :: cs
  | [] => []

/-- Drop one trailing double-quote when present. -/
def dropTrailingQuote (l : List Char) : List Char :=
  (dropLeadingQuote l.reverse).reverse

/-- Cell transformation exactly as the claim words it: first trim the cell,
then strip a single pair of enclosing double-quotes — only when a leading
and a trailing quote together enclose the cell; quotes that do not form an
enclosing pair are not stripped. -/
def claimCell (s : String) : String :=
  let t := jsTrim s
  if 2 ≤ t.data.length ∧ t.data.head? = some '"' ∧ t.data.getLast? = some '"'
  then String.mk t.data.tail.dropLast else t

/-- Cell transformation as the amended claim words it: remove one leading
double-quote if present and one trailing double-quote if present —
independently, not necessarily as an enclosing pair — then trim. -/
def amendedCell (s : String) : String :=
  String.mk (trimChars (dropTrailingQuote (dropLeadingQuote s.data)))

namespace IndexJs

/-- `normalize(s)` from `src/index.js`: `(s ?? "").toString().trim()`;
the argument is `Option`-valued to model a possibly `undefined` input. -/
def normalize (s : Option String) : String := jsTrim (s.getD "")

/-- `lower(s)` from `src/index.js`: `normalize(s).toLowerCase()`. -/
def lower (s : Option String) : String := jsLower (normalize s)

/-- The cell transform `c.replace(/^"|"$/g, "").trim()` applied to every
header and data cell: the regex independently removes a leading
double-quote (if any) and a trailing double-quote (if any), then the
result is trimmed. -/
def stripQuotes (s : String) : String :=
  let l1 := if s.data.head? = some '"' then s.data.tail else s.data
  let l2 := if l1.getLast? = some '"' then l1.dropLast else l1
  String.mk l2

/-- One cell of `parseCsvSimple`: de-quote, then trim. -/
def parseCell (s : String) : String := jsTrim (stripQuotes s)

/-- `line.split(",").map((c) => c.replace(/^"|"$/g, "").trim())`. -/
def splitCells (line : String) : List String :=
  (jsSplit ',' line).map parseCell

/-- `headers.forEach((h, idx) => (row[h] = cols[idx] ?? ""))`: walk the
headers in order, pairing each with the cell at the same position; missing
trailing cells become `""`; cells beyond the headers are dropped. -/
def mkRow : List String → List String → Row
  | [], _ => []
  | h :: hs, [] => (h, "") :: mkRow hs []
  | h :: hs, c :: cs => (h, c) :: mkRow hs cs

/-- `csvText.split(/\r?\n/).map((l) => l.trim()).filter(Boolean)`.
Splitting on `'\n'` and trimming each piece is extensionally the same as
splitting on `/\r?\n/` and trimming, because a carriage return adjacent to
a line end is whitespace removed by the trim. -/
def nonBlankLines (t : String) : List String :=
  ((jsSplit '\n' t).map jsTrim).filter (fun l => !(l == ""))

/-- `parseCsvSimple` from `src/index.js`: fewer than two non-blank lines
yield `[]`; otherwise the first line is the header and every further line
becomes a `Row`. -/
def parseCsvSimple (t : String) : List Row :=
  match nonBlankLines t with
  | header :: line :: rest =>
    (line :: rest).map fun l => mkRow (splitCells header) (splitCells l)
  | _ => []

/-- The cache-hit test of `ensureCacheFresh`:
`cache.rows.length > 0 && age < CACHE_TTL_SECONDS`. -/
abbrev cacheHit (ttl : Int) (now : Nat) (c : CacheState) : Prop :=
  0 < c.rows.length ∧ (now : Int) - (c.loadedAt : Int) < ttl

/-- `ensureCacheFresh` from `src/index.js`.  `now` is `nowSec()` at entry,
`now2` is `nowSec()` after the fetch; `f` is the fetch capability (CSV
text, or a thrown/non-success failure).  The returned pair is the cache
after the call and the outcome (`Except.error` = the surfaced failure). -/
def ensureCacheFresh (ttl : Int) (now now2 : Nat) (f : Except String String)
    (c : CacheState) : CacheState × Except String Unit :=
  if cacheHit ttl now c then (c, Except.ok ())
  else
    match f with
    | Except.error e => (c, Except.error e)
    | Except.ok csvText => (⟨now2, parseCsvSimple csvText⟩, Except.ok ())

/-- The per-row projection of `searchVideos`: `normalize(r[TITLE_COL])`
etc. -/
def project (cfg : Config) (r : Row) : VideoRecord :=
  ⟨normalize (rowGet r cfg.titleCol),
   normalize (rowGet r cfg.descCol),
   normalize (rowGet r cfg.urlCol)⟩

/-- The filter of `searchVideos`: require a title and a url, then test
whether the lower-cased "title description" contains the query. -/
def matchPred (q : String) (v : VideoRecord) : Bool :=
  !(v.title == "") && !(v.url == "") &&
    jsIncludes (jsLower (v.title ++ " " ++ v.description)) q

/-- `searchVideos` from `src/index.js`, with the globals
(`cache.rows`, `MAX_RESULTS`, column config) passed explicitly. -/
def searchVideos (cfg : Config) (maxResults : Nat) (rows : List Row)
    (query : String) : List VideoRecord :=
  let q := lower (some query)
  if q = "" then []
  else ((rows.map (project cfg)).filter (matchPred q)).take maxResults

/-- The match list of `searchVideos` before the `slice(0, MAX_RESULTS)`. -/
def allMatches (cfg : Config) (rows : List Row) (query : String) :
    List VideoRecord :=
  let q := lower (some query)
  if q = "" then []
  else (rows.map (project cfg)).filter (matchPred q)

/-- `searchVideos` as a step on the global cache: the function body reads
`cache.rows` and contains no assignment to `cache`, so as a state
transformer it returns the state unchanged next to its result. -/
def searchStep (cfg : Config) (maxResults : Nat) (c : CacheState)
    (query : String) : CacheState × List VideoRecord :=
  (c, searchVideos cfg maxResults c.rows query)

end IndexJs

namespace Part000

/-- The reload test of the unnamed file's `ensureFresh`:
`cache.rows.length === 0 || nowSec() - cache.loadedAt > CACHE_TTL_SECONDS`. -/
abbrev needsReload (ttl : Int) (now : Nat) (c : CacheState) : Prop :=
  c.rows.length = 0 ∨ ttl < (now : Int) - (c.loadedAt : Int)

/-- `ensureFresh` from the unnamed file; `loadSheet` is inlined: `f` is the
combined fetch-and-parse capability (the file parses with the external
`csv-parse` library), `now2` is `nowSec()` after a successful load.  On a
hit nothing happens; on a reload either the failure is rethrown before any
mutation, or `cache.rows` and `cache.loadedAt` are replaced. -/
def ensureFresh (ttl : Int) (now now2 : Nat) (f : Except String (List Row))
    (c : CacheState) : CacheState × Except String Unit :=
  if needsReload ttl now c then
    match f with
    | Except.error e => (c, Except.error e)
    | Except.ok records => (⟨now2, records⟩, Except.ok ())
  else (c, Except.ok ())

/-- The per-row projection of the unnamed file's `searchVideos`:
`row[TITLE_COL] ?? ""` etc. — note: no trimming. -/
def project (cfg : Config) (r : Row) : VideoRecord :=
  ⟨(rowGet r cfg.titleCol).getD "",
   (rowGet r cfg.descCol).getD "",
   (rowGet r cfg.urlCol).getD ""⟩

/-- `searchVideos` from the unnamed file: `query.toLowerCase()` with no
trim and no empty-query guard, then the two filters and the slice. -/
def searchVideos (cfg : Config) (maxResults : Nat) (rows : List Row)
    (query : String) : List VideoRecord :=
  let q := jsLower query
  (((rows.map (project cfg)).filter
      (fun v => !(v.title == "") && !(v.url == ""))).filter
      (fun v => jsIncludes (jsLower (v.title ++ " " ++ v.description)) q)).take
    maxResults

/-- The unnamed file's match list before the `slice(0, MAX_RESULTS)`. -/
def allMatches (cfg : Config) (rows : List Row) (query : String) :
    List VideoRecord :=
  let q := jsLower query
  ((rows.map (project cfg)).filter
      (fun v => !(v.title == "") && !(v.url == ""))).filter
    (fun v => jsIncludes (jsLower (v.title ++ " " ++ v.description)) q)

/-- The `tools/call` handler body of the unnamed file (lines 191-209):
`await ensureFresh()` then `searchVideos(query)` over the resulting cache;
a thrown failure is propagated without running the search. -/
def handleSearch (cfg : Config) (ttl : Int) (now now2 maxResults : Nat)
    (f : Except String (List Row)) (c : CacheState) (query : String) :
    CacheState × Except String (List VideoRecord) :=
  match ensureFresh ttl now now2 f c with
  | (c2, Except.ok _) =>
    (c2, Except.ok (searchVideos cfg maxResults c2.rows query))
  | (c2, Except.error e) => (c2, Except.error e)

end Part000

/-! ### Helper lemmas -/

theorem dropWhile_trimChars_self (l : List Char) :
    List.dropWhile isWs (trimChars l) = trimChars l := by
  obtain ⟨t, ht⟩ := List.rdropWhile_prefix isWs (List.dropWhile isWs l)
  unfold trimChars
  cases hm : List.rdropWhile isWs (List.dropWhile isWs l) with
  | nil => rfl
  | cons c cs =>
    rw [hm] at ht
    have hA : List.dropWhile isWs l = c :: (cs ++ t) := by
      rw [← ht]; simp
    have hw : List.dropWhile isWs l ≠ [] := by rw [hA]; simp
    have hc := List.head_dropWhile_not isWs l hw
    simp only [hA, List.head_cons] at hc
    simp [List.dropWhile_cons, hc]

theorem trimChars_idem (l : List Char) :
    trimChars (trimChars l) = trimChars l := by
  have h1 := dropWhile_trimChars_self l
  unfold trimChars at h1 ⊢
  rw [h1, List.rdropWhile_idempotent]

theorem jsTrim_idem (s : String) : jsTrim (jsTrim s) = jsTrim s := by
  simp [jsTrim, trimChars_idem]

theorem rowGet_append (r : Row) (p : String × String) (k : String) :
    rowGet (r ++ [p]) k = if p.1 = k then some p.2 else rowGet r k := by
  simp [rowGet, List.foldl_append]

theorem rowGet_isSome_iff (r : Row) (k : String) :
    (rowGet r k).isSome = true ↔ k ∈ r.map Prod.fst := by
  induction r using List.reverseRecOn with
  | nil => simp [rowGet]
  | append_singleton r p ih =>
    rw [rowGet_append]
    by_cases hp : p.1 = k
    · simp [hp]
    · simp only [hp, if_false, ih, List.map_append, List.map_cons, List.map_nil,
        List.mem_append, List.mem_singleton]
      constructor
      · exact Or.inl
      · rintro (h | h)
        · exact h
        · exact absurd h.symm hp

theorem mkRow_keys (hs cols : List String) :
    (IndexJs.mkRow hs cols).map Prod.fst = hs := by
  induction hs generalizing cols with
  | nil => rfl
  | cons h t ih =>
    cases cols with
    | nil => simp [IndexJs.mkRow, ih]
    | cons c cs => simp [IndexJs.mkRow, ih]

theorem mkRow_trailing_empty (hs cols : List String) (j : Nat)
    (hj : j < hs.length) (hc : cols.length ≤ j) :
    (IndexJs.mkRow hs cols).get? j = some (hs.get ⟨j, hj⟩, "") := by
  induction hs generalizing cols j with
  | nil => exact absurd hj (Nat.not_lt_zero j)
  | cons h t ih =>
    cases cols with
    | nil =>
      cases j with
      | zero => rfl
      | succ j' =>
        have hj' : j' < t.length := Nat.lt_of_succ_lt_succ hj
        simpa [IndexJs.mkRow] using ih [] j' hj' (Nat.zero_le j')
    | cons c cs =>
      cases j with
      | zero => exact absurd hc (by simp)
      | succ j' =>
        have hj' : j' < t.length := Nat.lt_of_succ_lt_succ hj
        have hc' : cs.length ≤ j' := Nat.le_of_succ_le_succ (by simpa using hc)
        simpa [IndexJs.mkRow] using ih cs j' hj' hc'

theorem headIf_eq_dropLeadingQuote (l : List Char) :
    (if l.head? = some '"' then l.tail else l) = dropLeadingQuote l := by
  cases l with
  | nil => simp [dropLeadingQuote]
  | cons c cs =>
    by_cases hc : c = '"'
    · simp [dropLeadingQuote, hc]
    · simp [dropLeadingQuote, hc]

theorem lastIf_eq_dropTrailingQuote (l : List Char) :
    (if l.getLast? = some '"' then l.dropLast else l) = dropTrailingQuote l := by
  induction l using List.reverseRecOn with
  | nil => simp [dropTrailingQuote, dropLeadingQuote]
  | append_singleton as a _ =>
    by_cases ha : a = '"'
    · simp [dropTrailingQuote, dropLeadingQuote, ha, List.reverse_append]
    · simp [dropTrailingQuote, dropLeadingQuote, ha, List.reverse_append]

theorem parseCell_eq_amendedCell (s : String) :
    IndexJs.parseCell s = amendedCell s := by
  simp only [IndexJs.parseCell, IndexJs.stripQuotes, amendedCell, jsTrim,
    headIf_eq_dropLeadingQuote]
  rw [lastIf_eq_dropTrailingQuote]

/-! ### Claims -/

/-- C1: if the fetch of CSV text fails during the freshness check (the
fetch capability throws or reports a non-success status, modelled as
`Except.error`), then — in both implementations — whenever the fetch is
actually attempted (no cache hit), the cache state after the call is
exactly the state before the call and the failure is surfaced to the
caller; this holds for every prior cache state. -/
theorem claim_C1_fetch_failure_preserves_cache (ttl : Int) (now now2 : Nat)
    (e : String) (c : CacheState)
    (hA : ¬ IndexJs.cacheHit ttl now c) (hB : Part000.needsReload ttl now c) :
    IndexJs.ensureCacheFresh ttl now now2 (Except.error e) c
      = (c, Except.error e) ∧
    Part000.ensureFresh ttl now now2 (Except.error e) c
      = (c, Except.error e) := by
  constructor
  · unfold IndexJs.ensureCacheFresh
    rw [if_neg hA]
  · unfold Part000.ensureFresh
    rw [if_pos hB]

/-- Witness for C1 at a concrete input: empty cache, failing fetch. -/
theorem claim_C1_witness :
    IndexJs.ensureCacheFresh 900 100 101 (Except.error "boom") ⟨0, []⟩
      = (⟨0, []⟩, Except.error "boom") ∧
    Part000.ensureFresh 900 100 101 (Except.error "boom") ⟨0, []⟩
      = (⟨0, []⟩, Except.error "boom") :=
  claim_C1_fetch_failure_preserves_cache 900 100 101 "boom" ⟨0, []⟩
    (by decide) (by decide)

/-- C2: after a successful load that produced non-empty rows, a second call
whose age is still strictly within the TTL performs no fetch (the result
does not depend on the fetch capability passed to the second call) and
returns the cache unchanged — in both implementations.  Across the two
calls exactly one fetch occurs: the first call misses (its miss condition
is a hypothesis) and consumes its fetch; the second ignores its own. -/
theorem claim_C2_second_call_within_ttl_no_fetch (ttl : Int)
    (now1 now1' now2 now2' : Nat) (csv : String) (c0 : CacheState)
    (f2 : Except String String) (rs : List Row)
    (g2 : Except String (List Row))
    (h0 : ¬ IndexJs.cacheHit ttl now1 c0)
    (h0p : Part000.needsReload ttl now1 c0)
    (hne : IndexJs.parseCsvSimple csv ≠ []) (hrs : rs ≠ [])
    (hage : (now2 : Int) - (now1' : Int) < ttl) :
    IndexJs.ensureCacheFresh ttl now1 now1' (Except.ok csv) c0
      = (⟨now1', IndexJs.parseCsvSimple csv⟩, Except.ok ()) ∧
    IndexJs.ensureCacheFresh ttl now2 now2' f2
        ⟨now1', IndexJs.parseCsvSimple csv⟩
      = (⟨now1', IndexJs.parseCsvSimple csv⟩, Except.ok ()) ∧
    Part000.ensureFresh ttl now1 now1' (Except.ok rs) c0
      = (⟨now1', rs⟩, Except.ok ()) ∧
    Part000.ensureFresh ttl now2 now2' g2 ⟨now1', rs⟩
      = (⟨now1', rs⟩, Except.ok ()) := by
  refine ⟨?_, ?_, ?_, ?_⟩
  · unfold IndexJs.ensureCacheFresh
    rw [if_neg h0]
  · unfold IndexJs.ensureCacheFresh
    rw [if_pos ⟨List.length_pos.mpr hne, hage⟩]
  · unfold Part000.ensureFresh
    rw [if_pos h0p]
  · unfold Part000.ensureFresh
    rw [if_neg ?_]
    rintro (h | h)
    · exact hrs (List.length_eq_zero.mp h)
    · exact absurd hage (not_lt.mpr (le_of_lt h))

/-- Witness for C2 at a concrete input: cold cache, CSV with one data row,
second call ten seconds later with a TTL of 900 and a failing fetch
capability that is never consulted. -/
theorem claim_C2_witness :
    IndexJs.ensureCacheFresh 900 0 10 (Except.ok "h\na") ⟨0, []⟩
      = (⟨10, IndexJs.parseCsvSimple "h\na"⟩, Except.ok ()) ∧
    IndexJs.ensureCacheFresh 900 20 21 (Except.error "x")
        ⟨10, IndexJs.parseCsvSimple "h\na"⟩
      = (⟨10, IndexJs.parseCsvSimple "h\na"⟩, Except.ok ()) ∧
    Part000.ensureFresh 900 0 10 (Except.ok [[("h", "a")]]) ⟨0, []⟩
      = (⟨10, [[("h", "a")]]⟩, Except.ok ()) ∧
    Part000.ensureFresh 900 20 21 (Except.error "y") ⟨10, [[("h", "a")]]⟩
      = (⟨10, [[("h", "a")]]⟩, Except.ok ()) :=
  claim_C2_second_call_within_ttl_no_fetch 900 0 10 20 21 "h\na" ⟨0, []⟩
    (Except.error "x") [[("h", "a")]] (Except.error "y")
    (by decide) (by decide) (by decide) (by decide) (by decide)

/-- C3 counterexample: the unnamed file's `ensureFresh` reloads only when
`age > ttl`, so with `ttlSeconds = 0`, a call at age 0 on a non-empty cache
performs no fetch at all (the result is a success and ignores the failing
fetch capability), contradicting "every call triggers a reload"; moreover
`ttlSeconds = -1` does reload on the same state, so a negative TTL does not
behave identically to 0. -/
theorem claim_C3_counterexample :
    Part000.ensureFresh 0 5 6 (Except.error "x") ⟨5, [[("a", "b")]]⟩
      = (⟨5, [[("a", "b")]]⟩, Except.ok ()) ∧
    Part000.ensureFresh (-1) 5 6 (Except.error "x") ⟨5, [[("a", "b")]]⟩
      = (⟨5, [[("a", "b")]]⟩, Except.error "x") :=
  ⟨rfl, rfl⟩

/-- C3 (amended): for `ensureCacheFresh` of `src/index.js`, on any cache
state whose load time is not in the future, a TTL of 0 triggers a fetch on
every call — a failing fetch surfaces its error and leaves the cache
unchanged, a successful fetch replaces the cache — and every TTL `≤ 0`
behaves identically to TTL 0 on every such state.  (The unnamed file's
`ensureFresh` does not satisfy this; see the counterexample.) -/
theorem claim_C3_zero_ttl_amended (now now2 : Nat) (c : CacheState)
    (h : c.loadedAt ≤ now) :
    (∀ e, IndexJs.ensureCacheFresh 0 now now2 (Except.error e) c
       = (c, Except.error e)) ∧
    (∀ s, IndexJs.ensureCacheFresh 0 now now2 (Except.ok s) c
       = (⟨now2, IndexJs.parseCsvSimple s⟩, Except.ok ())) ∧
    (∀ ttl : Int, ttl ≤ 0 → ∀ f,
      IndexJs.ensureCacheFresh ttl now now2 f c
        = IndexJs.ensureCacheFresh 0 now now2 f c) := by
  have hmiss : ∀ ttl : Int, ttl ≤ 0 → ¬ IndexJs.cacheHit ttl now c := by
    intro ttl httl hhit
    have hage : (0 : Int) ≤ (now : Int) - (c.loadedAt : Int) := by
      omega
    omega
  refine ⟨?_, ?_, ?_⟩
  · intro e
    unfold IndexJs.ensureCacheFresh
    rw [if_neg (hmiss 0 le_rfl)]
  · intro s
    unfold IndexJs.ensureCacheFresh
    rw [if_neg (hmiss 0 le_rfl)]
  · intro ttl httl f
    unfold IndexJs.ensureCacheFresh
    rw [if_neg (hmiss ttl httl), if_neg (hmiss 0 le_rfl)]

/-- Witness for C3 (amended) at a concrete input: non-empty cache loaded at
second 3, called at second 5 with TTL 0 and TTL -7. -/
theorem claim_C3_witness :
    IndexJs.ensureCacheFresh 0 5 6 (Except.error "x") ⟨3, [[("a", "b")]]⟩
      = (⟨3, [[("a", "b")]]⟩, Except.error "x") ∧
    IndexJs.ensureCacheFresh (-7) 5 6 (Except.error "x") ⟨3, [[("a", "b")]]⟩
      = IndexJs.ensureCacheFresh 0 5 6 (Except.error "x") ⟨3, [[("a", "b")]]⟩ :=
  ⟨(claim_C3_zero_ttl_amended 5 6 ⟨3, [[("a", "b")]]⟩ (by decide)).1 "x",
   (claim_C3_zero_ttl_amended 5 6 ⟨3, [[("a", "b")]]⟩ (by decide)).2.2 (-7)
     (by decide) (Except.error "x")⟩

/-- C4 counterexample: the unnamed file's `searchVideos` has no empty-query
guard; with the empty query (which trims to the empty string) and a
non-empty row set it returns a non-empty result — every row with a
non-empty title and url matches, because the empty string is a substring
of everything. -/
theorem claim_C4_counterexample :
    jsTrim "" = "" ∧
    Part000.searchVideos defaultConfig 3
        [[("OU Sooners videos", "T"), ("URL", "u")]] ""
      = [⟨"T", "", "u"⟩] :=
  ⟨rfl, by decide⟩

/-- C4 (amended): `searchVideos` of `src/index.js` returns the empty
sequence whenever the query trims to the empty string, for every rows
sequence, maximum result count and column configuration; the unnamed
file's `searchVideos` lacks the guard (see the counterexample). -/
theorem claim_C4_empty_query_amended (cfg : Config) (maxResults : Nat)
    (rows : List Row) (q : String) (h : jsTrim q = "") :
    IndexJs.searchVideos cfg maxResults rows q = [] := by
  have hq : IndexJs.lower (some q) = "" := by
    simp [IndexJs.lower, IndexJs.normalize, h, jsLower]
  unfold IndexJs.searchVideos
  simp [hq]

/-- Witness for C4 (amended) at a concrete input: an all-whitespace query
over a non-empty row set. -/
theorem claim_C4_witness :
    IndexJs.searchVideos defaultConfig 3
        [[("OU Sooners videos", "T"), ("URL", "u")]] "  " = [] :=
  claim_C4_empty_query_amended defaultConfig 3
    [[("OU Sooners videos", "T"), ("URL", "u")]] "  " (by decide)

/-- C5 counterexample: the unnamed file's `searchVideos` projects the row
fields without trimming, so it emits a record whose title is a single
space — non-empty as a string, but empty after trimming — contradicting
the claimed invariant. -/
theorem claim_C5_counterexample :
    Part000.searchVideos defaultConfig 3
        [[("OU Sooners videos", " "), ("URL", "u")]] " "
      = [⟨" ", "", "u"⟩] ∧
    jsTrim " " = "" :=
  ⟨by decide, rfl⟩

/-- C5 (amended): every record emitted by `searchVideos` of `src/index.js`
has a title and a url that are non-empty and remain non-empty after
trimming (the projection already trims), its description may be anything,
the trimmed lower-cased query is a substring of the lower-cased
concatenation of its title and description joined by a single space, and
the record is the projection of some source row.  The unnamed file's
`searchVideos` does not trim and can emit whitespace-only titles (see the
counterexample). -/
theorem claim_C5_emitted_record_invariant (cfg : Config) (maxResults : Nat)
    (rows : List Row) (q : String) (v : VideoRecord)
    (hv : v ∈ IndexJs.searchVideos cfg maxResults rows q) :
    v.title ≠ "" ∧ v.url ≠ "" ∧ jsTrim v.title ≠ "" ∧ jsTrim v.url ≠ "" ∧
    jsIncludes (jsLower (v.title ++ " " ++ v.description))
      (IndexJs.lower (some q)) = true ∧
    ∃ r ∈ rows, v = IndexJs.project cfg r := by
  unfold IndexJs.searchVideos at hv
  by_cases hq : IndexJs.lower (some q) = ""
  · rw [if_pos hq] at hv
    exact absurd hv (List.not_mem_nil v)
  · rw [if_neg hq] at hv
    have hv' := List.mem_of_mem_take hv
    rw [List.mem_filter] at hv'
    obtain ⟨hmem, hpred⟩ := hv'
    obtain ⟨r, hr, hproj⟩ := List.mem_map.mp hmem
    have hPieces : v.title ≠ "" ∧ v.url ≠ "" ∧
        jsIncludes (jsLower (v.title ++ " " ++ v.description))
          (IndexJs.lower (some q)) = true := by
      simp only [IndexJs.matchPred, Bool.and_eq_true, Bool.not_eq_true',
        beq_eq_false_iff_ne, ne_eq] at hpred
      exact ⟨hpred.1.1, hpred.1.2, hpred.2⟩
    refine ⟨hPieces.1, hPieces.2.1, ?_, ?_, hPieces.2.2, r, hr, hproj.symm⟩
    · have ht : v.title = jsTrim ((rowGet r cfg.titleCol).getD "") := by
        rw [← hproj]; rfl
      rw [ht, jsTrim_idem, ← ht]
      exact hPieces.1
    · have hu : v.url = jsTrim ((rowGet r cfg.urlCol).getD "") := by
        rw [← hproj]; rfl
      rw [hu, jsTrim_idem, ← hu]
      exact hPieces.2.1

/-- Witness for C5 (amended) at a concrete input: the spec's own example
row, queried with "baker". -/
theorem claim_C5_witness :
    ("Baker Mayfield TD" : String) ≠ "" ∧ ("http://a" : String) ≠ "" ∧
    jsTrim "Baker Mayfield TD" ≠ "" ∧ jsTrim "http://a" ≠ "" ∧
    jsIncludes (jsLower ("Baker Mayfield TD" ++ " " ++ "2017 game"))
      (IndexJs.lower (some "baker")) = true ∧
    ∃ r ∈ [[("OU Sooners videos", "Baker Mayfield TD"),
            ("Description", "2017 game"), ("URL", "http://a")]],
      (⟨"Baker Mayfield TD", "2017 game", "http://a"⟩ : VideoRecord)
        = IndexJs.project defaultConfig r :=
  claim_C5_emitted_record_invariant defaultConfig 3
    [[("OU Sooners videos", "Baker Mayfield TD"),
      ("Description", "2017 game"), ("URL", "http://a")]] "baker"
    ⟨"Baker Mayfield TD", "2017 game", "http://a"⟩ (by decide)

/-- C6: in both implementations, for every query, rows sequence, maximum
result count and column configuration, the search result has at most
`maxResults` entries, equals the first `maxResults` elements of the full
match list, and is a sublist of the projected source rows — so result
order is the order of first occurrence in the source rows (stable). -/
theorem claim_C6_bounded_stable_results (cfg : Config) (maxResults : Nat)
    (rows : List Row) (q : String) :
    (IndexJs.searchVideos cfg maxResults rows q).length ≤ maxResults ∧
    IndexJs.searchVideos cfg maxResults rows q
      = (IndexJs.allMatches cfg rows q).take maxResults ∧
    (IndexJs.searchVideos cfg maxResults rows q).Sublist
      (rows.map (IndexJs.project cfg)) ∧
    (Part000.searchVideos cfg maxResults rows q).length ≤ maxResults ∧
    Part000.searchVideos cfg maxResults rows q
      = (Part000.allMatches cfg rows q).take maxResults ∧
    (Part000.searchVideos cfg maxResults rows q).Sublist
      (rows.map (Part000.project cfg)) := by
  refine ⟨?_, ?_, ?_, ?_, ?_, ?_⟩
  · unfold IndexJs.searchVideos
    by_cases hq : IndexJs.lower (some q) = ""
    · simp [hq]
    · simp only [hq, if_neg, if_false]
      exact List.length_take_le maxResults _
  · unfold IndexJs.searchVideos IndexJs.allMatches
    by_cases hq : IndexJs.lower (some q) = ""
    · simp [hq]
    · simp [hq]
  · unfold IndexJs.searchVideos
    by_cases hq : IndexJs.lower (some q) = ""
    · simp [hq, List.nil_sublist]
    · simp only [hq, if_false]
      exact (List.take_sublist _ _).trans (List.filter_sublist _)
  · unfold Part000.searchVideos
    exact List.length_take_le maxResults _
  · rfl
  · unfold Part000.searchVideos
    exact (List.take_sublist _ _).trans
      ((List.filter_sublist _).trans (List.filter_sublist _))

/-- C7: for CSV text whose non-blank trimmed lines are a header followed by
at least one data line, `parseCsvSimple` returns exactly one `Row` per data
line, in source line order; every `Row` is keyed positionally by exactly
the header cells (so cells beyond the header count are dropped) and lookup
succeeds for every header; and a position beyond a data line's cell count
maps the corresponding header to the empty string. -/
theorem claim_C7_parse_shape (t : String) (hd d0 : String) (ds : List String)
    (hlines : IndexJs.nonBlankLines t = hd :: d0 :: ds) :
    IndexJs.parseCsvSimple t
      = (d0 :: ds).map
          (fun l => IndexJs.mkRow (IndexJs.splitCells hd)
            (IndexJs.splitCells l)) ∧
    (IndexJs.parseCsvSimple t).length = ds.length + 1 ∧
    (∀ row ∈ IndexJs.parseCsvSimple t,
      row.map Prod.fst = IndexJs.splitCells hd) ∧
    (∀ row ∈ IndexJs.parseCsvSimple t,
      ∀ k ∈ IndexJs.splitCells hd, (rowGet row k).isSome = true) ∧
    (∀ l ∈ d0 :: ds, ∀ j, ∀ hj : j < (IndexJs.splitCells hd).length,
      (IndexJs.splitCells l).length ≤ j →
        (IndexJs.mkRow (IndexJs.splitCells hd) (IndexJs.splitCells l)).get? j
          = some ((IndexJs.splitCells hd).get ⟨j, hj⟩, "")) := by
  have hparse : IndexJs.parseCsvSimple t
      = (d0 :: ds).map
          (fun l => IndexJs.mkRow (IndexJs.splitCells hd)
            (IndexJs.splitCells l)) := by
    unfold IndexJs.parseCsvSimple
    rw [hlines]
  refine ⟨hparse, ?_, ?_, ?_, ?_⟩
  · rw [hparse]; simp
  · intro row hrow
    rw [hparse] at hrow
    obtain ⟨l, _, hl⟩ := List.mem_map.mp hrow
    rw [← hl]
    exact mkRow_keys _ _
  · intro row hrow k hk
    rw [hparse] at hrow
    obtain ⟨l, _, hl⟩ := List.mem_map.mp hrow
    rw [← hl, rowGet_isSome_iff, mkRow_keys]
    exact hk
  · intro l _ j hj hc
    exact mkRow_trailing_empty _ _ j hj hc

/-- Witness for C7 at a concrete input: a header of two cells, a short data
line (missing trailing cell) and a long one (extra cell dropped). -/
theorem claim_C7_witness :
    IndexJs.parseCsvSimple "a,b\nx\np,q,r"
      = ["x", "p,q,r"].map
          (fun l => IndexJs.mkRow (IndexJs.splitCells "a,b")
            (IndexJs.splitCells l)) :=
  (claim_C7_parse_shape "a,b\nx\np,q,r" "a,b" "x" ["p,q,r"] (by decide)).1

/-- C8: CSV text with fewer than two non-blank lines parses to the empty
sequence rather than raising an error; in particular the empty string and
a lone header line both parse to the empty sequence. -/
theorem claim_C8_short_input_empty :
    (∀ t : String, (IndexJs.nonBlankLines t).length < 2 →
      IndexJs.parseCsvSimple t = []) ∧
    IndexJs.parseCsvSimple "" = [] ∧
    IndexJs.parseCsvSimple "headeronly" = [] := by
  refine ⟨?_, rfl, rfl⟩
  intro t h
  unfold IndexJs.parseCsvSimple
  cases hl : IndexJs.nonBlankLines t with
  | nil => rfl
  | cons a l =>
    cases l with
    | nil => rfl
    | cons b l' =>
      rw [hl] at h
      simp at h
      omega

/-- Witness for C8's universally quantified part at a concrete input. -/
theorem claim_C8_witness : IndexJs.parseCsvSimple " only \n " = [] :=
  claim_C8_short_input_empty.1 " only \n " (by decide)

/-- C9 counterexample: the regex `/^"|"$/g` strips a lone leading quote
even when no trailing quote closes it, so for the raw header cell `"a`
the code produces `a`, while the claimed transformation (trim, then strip
only an enclosing pair) leaves `"a` unchanged; the full parse of
`"a,b\nx,y` shows the stripped header in context. -/
theorem claim_C9_counterexample :
    IndexJs.parseCell "\"a" = "a" ∧ claimCell "\"a" = "\"a" ∧
    ("a" : String) ≠ "\"a" ∧
    IndexJs.parseCsvSimple "\"a,b\nx,y" = [[("a", "x"), ("b", "y")]] :=
  ⟨by decide, by decide, by decide, by decide⟩

/-- C9 (amended): every header and data cell is produced by removing one
leading double-quote if present and one trailing double-quote if present —
independently, not necessarily as an enclosing pair — and then trimming
the result (the strip happens before the trim, not after); headers and
data cells are treated identically, via the same cell transformation. -/
theorem claim_C9_cell_dequote_amended (s : String) :
    IndexJs.parseCell s = amendedCell s ∧
    IndexJs.splitCells s = (jsSplit ',' s).map amendedCell := by
  refine ⟨parseCell_eq_amendedCell s, ?_⟩
  unfold IndexJs.splitCells
  rw [funext parseCell_eq_amendedCell]

/-- C10: search is read-only with respect to the cache.  The unnamed
file's `tools/call` handler leaves the cache exactly as `ensureFresh`
left it — running the search changes nothing further — and `src/index.js`'s
`searchVideos`, as a step on the global cache, returns the cache state
unchanged for every cache state and query. -/
theorem claim_C10_search_preserves_cache (cfg : Config) (ttl : Int)
    (now now2 maxResults : Nat) (f : Except String (List Row))
    (c : CacheState) (q : String) :
    (Part000.handleSearch cfg ttl now now2 maxResults f c q).1
      = (Part000.ensureFresh ttl now now2 f c).1 ∧
    (IndexJs.searchStep cfg maxResults c q).1 = c := by
  constructor
  · unfold Part000.handleSearch
    cases Part000.ensureFresh ttl now now2 f c with
    | mk c2 r =>
      cases r with
      | error e => rfl
      | ok u => rfl
  · rfl
